import Mathlib

/-!
Shallow embedding of `src/src/components/Stopwatch.tsx`.

The component keeps three pieces of React state — `time` (milliseconds),
`isRunning`, `lapTimes` — plus a mutable ref `intervalRef` holding the id
returned by the latest `setInterval` call (or `null`).  We model the browser
timer registry explicitly: `timers` is the list of interval ids currently
registered with the environment, and `nextId` is the fresh id the next
`setInterval` call returns (browser interval ids are positive, so ids start
at 1 and the JS truthiness test `if (intervalRef.current)` coincides with
`Option.isSome`).  Each firing of a registered interval callback runs
`setTime(prevTime => prevTime + 10)`.

`time` is modelled as `Int` (a JS number holding an integer), so that
non-negativity is a provable invariant rather than a typing artifact.
-/

namespace Stopwatch

/-- `interface LapTime { id: number; time: string; totalTime: number }`. -/
structure LapTime where
  id : Nat
  time : String
  totalTime : Int
deriving Repr, DecidableEq

/-- The component state: React state plus the interval ref and the modelled
browser timer registry. -/
structure SWState where
  time : Int
  isRunning : Bool
  lapTimes : List LapTime
  intervalRef : Option Nat
  timers : List Nat
  nextId : Nat
deriving Repr, DecidableEq

/-- `s.padStart(2, '0')`: left-pad with `'0'` up to length 2; a no-op when
the string already has length ≥ 2. -/
def padStart2 (s : String) : String :=
  if s.length < 2 then ⟨List.replicate (2 - s.length) '0' ++ s.data⟩ else s

/-- `formatTime(totalMilliseconds)`:
`minutes = Math.floor(ms / 60000)`, `seconds = Math.floor((ms % 60000) / 1000)`,
`milliseconds = Math.floor((ms % 1000) / 10)`, each rendered with
`toString().padStart(2, '0')` and joined by `":"`.  JS `Math.floor` of an
integer quotient is floor division (`Int.fdiv`) and JS `%` is truncating
remainder (`Int.tmod`); `toString` is decimal `Int.repr`. -/
def formatTime (totalMilliseconds : Int) : String :=
  let minutes := Int.fdiv totalMilliseconds 60000
  let seconds := Int.fdiv (Int.tmod totalMilliseconds 60000) 1000
  let milliseconds := Int.fdiv (Int.tmod totalMilliseconds 1000) 10
  padStart2 minutes.repr ++ ":" ++ padStart2 seconds.repr ++ ":"
    ++ padStart2 milliseconds.repr

/-- Mount state: `useState(0)`, `useState(false)`, `useState([])`,
`useRef(null)`; no interval registered yet. -/
def init : SWState :=
  { time := 0, isRunning := false, lapTimes := [], intervalRef := none,
    timers := [], nextId := 1 }

/-- `startStopwatch`: `setIsRunning(true)` then
`intervalRef.current = setInterval(..., 10)`.  `setInterval` registers a new
interval (fresh id) and the ref is overwritten with that id; note the code
does NOT check `isRunning` and does NOT clear a previously stored interval. -/
def startStopwatch (s : SWState) : SWState :=
  { s with isRunning := true,
           timers := s.nextId :: s.timers,
           intervalRef := some s.nextId,
           nextId := s.nextId + 1 }

/-- The fragment `if (intervalRef.current) { clearInterval(intervalRef.current);
intervalRef.current = null; }` shared verbatim by `pauseStopwatch` and
`resetStopwatch`. -/
def clearHandle (s : SWState) : SWState :=
  match s.intervalRef with
  | some k => { s with timers := s.timers.erase k, intervalRef := none }
  | none => s

/-- `pauseStopwatch`: `setIsRunning(false)` then clear-and-null the ref. -/
def pauseStopwatch (s : SWState) : SWState :=
  clearHandle { s with isRunning := false }

/-- `resetStopwatch`: `setIsRunning(false); setTime(0); setLapTimes([])` then
clear-and-null the ref. -/
def resetStopwatch (s : SWState) : SWState :=
  clearHandle { s with isRunning := false, time := 0, lapTimes := [] }

/-- `recordLap`: guarded by `if (time > 0)`; builds
`{ id: lapTimes.length + 1, time: formatTime(time), totalTime: time }` and
prepends it (`setLapTimes(prevLaps => [newLap, ...prevLaps])`). -/
def recordLap (s : SWState) : SWState :=
  if 0 < s.time then
    { s with lapTimes :=
        { id := s.lapTimes.length + 1, time := formatTime s.time,
          totalTime := s.time } :: s.lapTimes }
  else s

/-- `handleStartPause`: the toggle wired to the Start/Pause button. -/
def handleStartPause (s : SWState) : SWState :=
  if s.isRunning then pauseStopwatch s else startStopwatch s

/-- One firing of the interval callback `() => setTime(prev => prev + 10)`.
It fires only while its interval id is registered (guard in the step
relations below). -/
def tickOnce (s : SWState) : SWState :=
  { s with time := s.time + 10 }

/-- The `useEffect` unmount cleanup:
`if (intervalRef.current) clearInterval(intervalRef.current)` — it cancels
the interval but does not null the ref. -/
def unmountCleanup (s : SWState) : SWState :=
  match s.intervalRef with
  | some k => { s with timers := s.timers.erase k }
  | none => s

/-- One step of the widget, with every operation of the code available —
including the internal `startStopwatch` / `pauseStopwatch` called directly,
as the spec's operation list does.  A tick requires its interval id to be
registered. -/
inductive Step : SWState → SWState → Prop
  | start (s : SWState) : Step s (startStopwatch s)
  | pause (s : SWState) : Step s (pauseStopwatch s)
  | toggle (s : SWState) : Step s (handleStartPause s)
  | lap (s : SWState) : Step s (recordLap s)
  | reset (s : SWState) : Step s (resetStopwatch s)
  | tick (s : SWState) (k : Nat) (h : k ∈ s.timers) : Step s (tickOnce s)

/-- One step through the component's actual event surface: the three button
handlers (`handleStartPause`, `recordLap`, `resetStopwatch`) and interval
firings.  `startStopwatch`/`pauseStopwatch` are reachable only through
`handleStartPause` in the rendered component. -/
inductive UIStep : SWState → SWState → Prop
  | toggle (s : SWState) : UIStep s (handleStartPause s)
  | lap (s : SWState) : UIStep s (recordLap s)
  | reset (s : SWState) : UIStep s (resetStopwatch s)
  | tick (s : SWState) (k : Nat) (h : k ∈ s.timers) : UIStep s (tickOnce s)

/-- Reachable under all operations. -/
def Reach (s : SWState) : Prop := Relation.ReflTransGen Step init s

/-- Reachable through the component's event surface. -/
def ReachUI (s : SWState) : Prop := Relation.ReflTransGen UIStep init s

/-- Registered interval ids are always below the fresh-id counter. -/
def TimerWF (s : SWState) : Prop := ∀ k ∈ s.timers, k < s.nextId

/-- The handle discipline of the rendered component: `intervalRef` tracks
exactly the registered intervals (so there is at most one), and `isRunning`
agrees with the handle being present. -/
def Handled (s : SWState) : Prop :=
  s.timers = s.intervalRef.toList ∧ s.isRunning = s.intervalRef.isSome ∧ TimerWF s

theorem step_of_uiStep {s s' : SWState} (h : UIStep s s') : Step s s' := by
  cases h with
  | toggle => exact Step.toggle s
  | lap => exact Step.lap s
  | reset => exact Step.reset s
  | tick k hk => exact Step.tick s k hk

theorem reach_of_reachUI {s : SWState} (h : ReachUI s) : Reach s :=
  Relation.ReflTransGen.mono (fun _ _ => step_of_uiStep) h

/-! ### Field lemmas for the operations -/

@[simp] theorem clearHandle_time (s : SWState) : (clearHandle s).time = s.time := by
  cases h : s.intervalRef <;> simp [clearHandle, h]

@[simp] theorem clearHandle_isRunning (s : SWState) :
    (clearHandle s).isRunning = s.isRunning := by
  cases h : s.intervalRef <;> simp [clearHandle, h]

@[simp] theorem clearHandle_lapTimes (s : SWState) :
    (clearHandle s).lapTimes = s.lapTimes := by
  cases h : s.intervalRef <;> simp [clearHandle, h]

@[simp] theorem clearHandle_nextId (s : SWState) :
    (clearHandle s).nextId = s.nextId := by
  cases h : s.intervalRef <;> simp [clearHandle, h]

@[simp] theorem clearHandle_intervalRef (s : SWState) :
    (clearHandle s).intervalRef = none := by
  cases h : s.intervalRef <;> simp [clearHandle, h]

theorem clearHandle_timers_subset {s : SWState} {k : Nat}
    (h : k ∈ (clearHandle s).timers) : k ∈ s.timers := by
  cases h0 : s.intervalRef with
  | none => simpa [clearHandle, h0] using h
  | some j =>
    simp only [clearHandle, h0] at h
    exact List.mem_of_mem_erase h

theorem unmountCleanup_timers_subset {s : SWState} {k : Nat}
    (h : k ∈ (unmountCleanup s).timers) : k ∈ s.timers := by
  cases h0 : s.intervalRef with
  | none => simpa [unmountCleanup, h0] using h
  | some j =>
    simp only [unmountCleanup, h0] at h
    exact List.mem_of_mem_erase h

@[simp] theorem unmountCleanup_nextId (s : SWState) :
    (unmountCleanup s).nextId = s.nextId := by
  cases h : s.intervalRef <;> simp [unmountCleanup, h]

@[simp] theorem unmountCleanup_time (s : SWState) :
    (unmountCleanup s).time = s.time := by
  cases h : s.intervalRef <;> simp [unmountCleanup, h]

@[simp] theorem pauseStopwatch_time (s : SWState) :
    (pauseStopwatch s).time = s.time := by
  simp [pauseStopwatch]

@[simp] theorem pauseStopwatch_lapTimes (s : SWState) :
    (pauseStopwatch s).lapTimes = s.lapTimes := by
  simp [pauseStopwatch]

@[simp] theorem pauseStopwatch_isRunning (s : SWState) :
    (pauseStopwatch s).isRunning = false := by
  simp [pauseStopwatch]

@[simp] theorem pauseStopwatch_nextId (s : SWState) :
    (pauseStopwatch s).nextId = s.nextId := by
  simp [pauseStopwatch]

@[simp] theorem resetStopwatch_time (s : SWState) : (resetStopwatch s).time = 0 := by
  simp [resetStopwatch]

@[simp] theorem resetStopwatch_lapTimes (s : SWState) :
    (resetStopwatch s).lapTimes = [] := by
  simp [resetStopwatch]

@[simp] theorem resetStopwatch_isRunning (s : SWState) :
    (resetStopwatch s).isRunning = false := by
  simp [resetStopwatch]

@[simp] theorem resetStopwatch_nextId (s : SWState) :
    (resetStopwatch s).nextId = s.nextId := by
  simp [resetStopwatch]

@[simp] theorem resetStopwatch_intervalRef (s : SWState) :
    (resetStopwatch s).intervalRef = none := by
  simp [resetStopwatch]

@[simp] theorem startStopwatch_time (s : SWState) :
    (startStopwatch s).time = s.time := rfl

@[simp] theorem startStopwatch_lapTimes (s : SWState) :
    (startStopwatch s).lapTimes = s.lapTimes := rfl

@[simp] theorem startStopwatch_isRunning (s : SWState) :
    (startStopwatch s).isRunning = true := rfl

@[simp] theorem startStopwatch_timers (s : SWState) :
    (startStopwatch s).timers = s.nextId :: s.timers := rfl

@[simp] theorem startStopwatch_nextId (s : SWState) :
    (startStopwatch s).nextId = s.nextId + 1 := rfl

@[simp] theorem recordLap_time (s : SWState) : (recordLap s).time = s.time := by
  by_cases h : 0 < s.time <;> simp [recordLap, h]

@[simp] theorem recordLap_isRunning (s : SWState) :
    (recordLap s).isRunning = s.isRunning := by
  by_cases h : 0 < s.time <;> simp [recordLap, h]

@[simp] theorem recordLap_intervalRef (s : SWState) :
    (recordLap s).intervalRef = s.intervalRef := by
  by_cases h : 0 < s.time <;> simp [recordLap, h]

@[simp] theorem recordLap_timers (s : SWState) :
    (recordLap s).timers = s.timers := by
  by_cases h : 0 < s.time <;> simp [recordLap, h]

@[simp] theorem recordLap_nextId (s : SWState) :
    (recordLap s).nextId = s.nextId := by
  by_cases h : 0 < s.time <;> simp [recordLap, h]

@[simp] theorem tickOnce_time (s : SWState) : (tickOnce s).time = s.time + 10 := rfl

@[simp] theorem tickOnce_isRunning (s : SWState) :
    (tickOnce s).isRunning = s.isRunning := rfl

@[simp] theorem tickOnce_lapTimes (s : SWState) :
    (tickOnce s).lapTimes = s.lapTimes := rfl

@[simp] theorem tickOnce_intervalRef (s : SWState) :
    (tickOnce s).intervalRef = s.intervalRef := rfl

@[simp] theorem tickOnce_timers (s : SWState) : (tickOnce s).timers = s.timers := rfl

@[simp] theorem tickOnce_nextId (s : SWState) : (tickOnce s).nextId = s.nextId := rfl

@[simp] theorem handleStartPause_time (s : SWState) :
    (handleStartPause s).time = s.time := by
  by_cases h : s.isRunning <;> simp [handleStartPause, h]

@[simp] theorem handleStartPause_lapTimes (s : SWState) :
    (handleStartPause s).lapTimes = s.lapTimes := by
  by_cases h : s.isRunning <;> simp [handleStartPause, h]

theorem handleStartPause_nextId_le (s : SWState) :
    s.nextId ≤ (handleStartPause s).nextId := by
  by_cases h : s.isRunning <;> simp [handleStartPause, h]

/-! ### Decimal-rendering lemmas

`Nat.repr` produces a non-empty string of decimal digits; together with the
`padStart2` lemmas these give the `\d{2,}:\d{2}:\d{2}` shape of
`formatTime`'s output. -/

theorem digitChar_isDigit {n : Nat} (h : n < 10) :
    (Nat.digitChar n).isDigit = true := by
  interval_cases n <;> decide

theorem toDigitsCore_digits :
    ∀ (fuel n : Nat) (ds : List Char), (∀ c ∈ ds, c.isDigit = true) →
      ∀ c ∈ Nat.toDigitsCore 10 fuel n ds, c.isDigit = true := by
  intro fuel
  induction fuel with
  | zero => intro n ds hds c hc; exact hds c hc
  | succ f ih =>
    intro n ds hds c hc
    rw [Nat.toDigitsCore] at hc
    by_cases h : n / 10 = 0
    · rw [if_pos h] at hc
      rcases List.mem_cons.mp hc with h0 | h0
      · exact h0 ▸ digitChar_isDigit (Nat.mod_lt _ (by norm_num))
      · exact hds c h0
    · rw [if_neg h] at hc
      refine ih (n / 10) _ ?_ c hc
      intro c' hc'
      rcases List.mem_cons.mp hc' with h0 | h0
      · exact h0 ▸ digitChar_isDigit (Nat.mod_lt _ (by norm_num))
      · exact hds c' h0

theorem toDigitsCore_length_le :
    ∀ (fuel n : Nat) (ds : List Char),
      ds.length ≤ (Nat.toDigitsCore 10 fuel n ds).length := by
  intro fuel
  induction fuel with
  | zero => intro n ds; exact le_refl _
  | succ f ih =>
    intro n ds
    rw [Nat.toDigitsCore]
    by_cases h : n / 10 = 0
    · simp [h]
    · rw [if_neg h]
      exact le_trans (Nat.le_succ _) (ih (n / 10) ((n % 10).digitChar :: ds))

theorem repr_data_digits (n : Nat) :
    ∀ c ∈ (Nat.repr n).data, c.isDigit = true := by
  intro c hc
  exact toDigitsCore_digits (n + 1) n [] (by simp) c hc

theorem one_le_repr_length (n : Nat) : 1 ≤ (Nat.repr n).length := by
  show 1 ≤ (Nat.toDigitsCore 10 (n + 1) n []).length
  rw [Nat.toDigitsCore]
  by_cases h : n / 10 = 0
  · simp [h]
  · rw [if_neg h]
    exact le_trans (by simp) (toDigitsCore_length_le n (n / 10) [Nat.digitChar (n % 10)])

theorem repr_length_le_two : ∀ n : Fin 100, (Nat.repr n.val).length ≤ 2 := by
  decide

theorem padStart2_length {s : String} (h : s.length ≤ 2) :
    (padStart2 s).length = 2 := by
  unfold padStart2
  by_cases hlt : s.length < 2
  · simp only [hlt, if_pos hlt]
    show (List.replicate (2 - s.length) '0' ++ s.data).length = 2
    have : s.data.length = s.length := rfl
    simp [List.length_append, this]
    omega
  · simp only [if_neg hlt]
    omega

theorem two_le_padStart2_length (s : String) : 2 ≤ (padStart2 s).length := by
  unfold padStart2
  by_cases hlt : s.length < 2
  · simp only [if_pos hlt]
    show 2 ≤ (List.replicate (2 - s.length) '0' ++ s.data).length
    have : s.data.length = s.length := rfl
    simp [List.length_append, this]
    omega
  · simp only [if_neg hlt]
    omega

theorem padStart2_digits {s : String} (h : ∀ c ∈ s.data, c.isDigit = true) :
    ∀ c ∈ (padStart2 s).data, c.isDigit = true := by
  unfold padStart2
  by_cases hlt : s.length < 2
  · simp only [if_pos hlt]
    intro c hc
    rcases List.mem_append.mp hc with h0 | h0
    · rw [(List.eq_of_mem_replicate h0 : c = '0')]; decide
    · exact h c h0
  · simp only [if_neg hlt]; exact h

/-! ### Invariant preservation -/

theorem timerWF_init : TimerWF init := by
  intro k hk
  simp [init] at hk

theorem timerWF_start {s : SWState} (h : TimerWF s) : TimerWF (startStopwatch s) := by
  intro k hk
  rw [startStopwatch_timers] at hk
  rcases List.mem_cons.mp hk with h0 | h0
  · rw [h0, startStopwatch_nextId]; omega
  · rw [startStopwatch_nextId]; exact lt_trans (h k h0) (by omega)

theorem timerWF_clearHandle {s : SWState} (h : TimerWF s) : TimerWF (clearHandle s) := by
  intro k hk
  rw [clearHandle_nextId]
  exact h k (clearHandle_timers_subset hk)

theorem timerWF_pause {s : SWState} (h : TimerWF s) : TimerWF (pauseStopwatch s) :=
  timerWF_clearHandle h

theorem timerWF_reset {s : SWState} (h : TimerWF s) : TimerWF (resetStopwatch s) :=
  timerWF_clearHandle h

theorem timerWF_step {s s' : SWState} (hs : Step s s') (h : TimerWF s) : TimerWF s' := by
  cases hs with
  | start => exact timerWF_start h
  | pause => exact timerWF_pause h
  | reset => exact timerWF_reset h
  | toggle =>
    by_cases hr : s.isRunning
    · simpa [handleStartPause, hr] using timerWF_pause h
    · simpa [handleStartPause, hr] using timerWF_start h
  | lap => intro k hk; rw [recordLap_nextId]; exact h k (by rwa [recordLap_timers] at hk)
  | tick _ _ => intro k hk; rw [tickOnce_nextId]; exact h k (by rwa [tickOnce_timers] at hk)

theorem reach_timerWF {s : SWState} (h : Reach s) : TimerWF s := by
  induction h with
  | refl => exact timerWF_init
  | tail _ hstep ih => exact timerWF_step hstep ih

theorem handled_init : Handled init := by
  refine ⟨rfl, rfl, timerWF_init⟩

theorem handled_toggle {s : SWState} (h : Handled s) : Handled (handleStartPause s) := by
  obtain ⟨ht, hr, hwf⟩ := h
  cases hj : s.intervalRef with
  | none =>
    -- not running: the handle is absent, toggle starts a fresh interval
    have hrun : s.isRunning = false := by rw [hr, hj]; rfl
    have htoggle : handleStartPause s = startStopwatch s := by
      simp [handleStartPause, hrun]
    rw [htoggle]
    refine ⟨?_, rfl, timerWF_start hwf⟩
    rw [startStopwatch_timers, ht, hj]
    rfl
  | some j =>
    -- running: the handle is present, toggle pauses and erases exactly it
    have hrun : s.isRunning = true := by rw [hr, hj]; rfl
    have htoggle : handleStartPause s = pauseStopwatch s := by
      simp [handleStartPause, hrun]
    rw [htoggle]
    have htimers : (pauseStopwatch s).timers = [] := by
      simp [pauseStopwatch, clearHandle, hj, ht]
    have href : (pauseStopwatch s).intervalRef = none := by
      simp [pauseStopwatch, clearHandle, hj]
    exact ⟨by rw [htimers, href]; rfl,
      by rw [pauseStopwatch_isRunning, href]; rfl, timerWF_pause hwf⟩

theorem handled_reset {s : SWState} (h : Handled s) : Handled (resetStopwatch s) := by
  obtain ⟨ht, hr, hwf⟩ := h
  refine ⟨?_, by simp, timerWF_reset hwf⟩
  rw [resetStopwatch_intervalRef]
  cases hj : s.intervalRef with
  | none => simp [resetStopwatch, clearHandle, hj, ht]
  | some j => simp [resetStopwatch, clearHandle, hj, ht]

theorem handled_lap {s : SWState} (h : Handled s) : Handled (recordLap s) := by
  obtain ⟨ht, hr, hwf⟩ := h
  refine ⟨by rw [recordLap_timers, recordLap_intervalRef]; exact ht,
    by rw [recordLap_isRunning, recordLap_intervalRef]; exact hr, ?_⟩
  intro k hk
  rw [recordLap_nextId]
  exact hwf k (by rwa [recordLap_timers] at hk)

theorem handled_tick {s : SWState} (h : Handled s) : Handled (tickOnce s) := by
  obtain ⟨ht, hr, hwf⟩ := h
  exact ⟨ht, hr, fun k hk => hwf k hk⟩

theorem handled_uiStep {s s' : SWState} (hs : UIStep s s') (h : Handled s) :
    Handled s' := by
  cases hs with
  | toggle => exact handled_toggle h
  | lap => exact handled_lap h
  | reset => exact handled_reset h
  | tick _ _ => exact handled_tick h

theorem reachUI_handled {s : SWState} (h : ReachUI s) : Handled s := by
  induction h with
  | refl => exact handled_init
  | tail _ hstep ih => exact handled_uiStep hstep ih

/-! ### Freshness: a cancelled interval id never comes back -/

theorem step_nextId_mono {s s' : SWState} (h : Step s s') : s.nextId ≤ s'.nextId := by
  cases h with
  | start => rw [startStopwatch_nextId]; omega
  | pause => rw [pauseStopwatch_nextId]
  | toggle => exact handleStartPause_nextId_le s
  | lap => rw [recordLap_nextId]
  | reset => rw [resetStopwatch_nextId]
  | tick _ _ => rw [tickOnce_nextId]

theorem step_not_mem_timers {s s' : SWState} {k : Nat} (h : Step s s')
    (hk : k ∉ s.timers) (hlt : k < s.nextId) : k ∉ s'.timers := by
  cases h with
  | start =>
    rw [startStopwatch_timers]
    intro hmem
    rcases List.mem_cons.mp hmem with h0 | h0
    · omega
    · exact hk h0
  | pause =>
    exact fun hmem =>
      hk (clearHandle_timers_subset (s := { s with isRunning := false }) hmem)
  | reset =>
    exact fun hmem =>
      hk (clearHandle_timers_subset
        (s := { s with isRunning := false, time := 0, lapTimes := [] }) hmem)
  | toggle =>
    by_cases hr : s.isRunning
    · simp only [handleStartPause, hr, if_pos]
      exact fun hmem =>
        hk (clearHandle_timers_subset (s := { s with isRunning := false }) hmem)
    · simp only [handleStartPause, hr, if_neg, Bool.false_eq_true, not_false_iff,
        startStopwatch_timers]
      intro hmem
      rcases List.mem_cons.mp hmem with h0 | h0
      · omega
      · exact hk h0
  | lap => rwa [recordLap_timers]
  | tick _ _ => rwa [tickOnce_timers]

theorem steps_timer_gone {k : Nat} {s s' : SWState}
    (h : Relation.ReflTransGen Step s s') (hk : k ∉ s.timers) (hlt : k < s.nextId) :
    k ∉ s'.timers := by
  induction h with
  | refl => exact hk
  | tail h1 hstep ih =>
    rename_i b c
    have hb : k < b.nextId := by
      calc k < s.nextId := hlt
        _ ≤ b.nextId := by
          clear hstep ih
          induction h1 with
          | refl => exact le_refl _
          | tail _ hstep2 ih2 => exact le_trans ih2 (step_nextId_mono hstep2)
    exact step_not_mem_timers hstep ih hb

/-- `formatTime` on a non-negative integer, written with `Nat` arithmetic. -/
theorem formatTime_natCast (n : Nat) :
    formatTime (n : Int) =
      padStart2 (Nat.repr (n / 60000)) ++ ":"
        ++ padStart2 (Nat.repr (n % 60000 / 1000)) ++ ":"
        ++ padStart2 (Nat.repr (n % 1000 / 10)) := by
  unfold formatTime
  rw [show ((60000 : Int)) = ((60000 : Nat) : Int) from rfl,
    show ((1000 : Int)) = ((1000 : Nat) : Int) from rfl,
    show ((10 : Int)) = ((10 : Nat) : Int) from rfl,
    ← Int.ofNat_tmod, ← Int.ofNat_tmod, ← Int.ofNat_fdiv, ← Int.ofNat_fdiv,
    ← Int.ofNat_fdiv]
  rfl

/-! ### Claim theorems -/

/-- C1: the claim says a second `start()` without an intervening `pause()`
creates no additional periodic increment source.  Evaluating the code:
`startStopwatch` has no `isRunning` guard, so starting twice from the mount
state registers TWO intervals (ids 1 and 2) — double-speed ticking — and the
ref retains only the second id, so the first interval can no longer be
cleared. -/
theorem startTwice_two_active_timers :
    ((startStopwatch (startStopwatch init)).timers).length = 2 ∧
    (startStopwatch init).isRunning = true ∧
    (startStopwatch (startStopwatch init)).timers = [2, 1] ∧
    (startStopwatch (startStopwatch init)).intervalRef = some 2 := by
  refine ⟨rfl, rfl, rfl, rfl⟩

/-- C2: with elapsed time > 0, `recordLap` prepends exactly one record with
`id = previous count + 1`, `time = formatTime(elapsed)`,
`totalTime = elapsed`, keeping all previous records unchanged behind it;
the rest of the state is untouched. -/
theorem recordLap_prepends (s : SWState) (h : 0 < s.time) :
    (recordLap s).lapTimes =
      { id := s.lapTimes.length + 1, time := formatTime s.time,
        totalTime := s.time } :: s.lapTimes ∧
    (recordLap s).time = s.time ∧ (recordLap s).isRunning = s.isRunning ∧
    (recordLap s).intervalRef = s.intervalRef := by
  refine ⟨by simp [recordLap, h], by simp, by simp, by simp⟩

theorem recordLap_prepends_witness :
    0 < ({ init with time := 510 } : SWState).time ∧
    (recordLap { init with time := 510 }).lapTimes =
      [{ id := 1, time := "00:00:51", totalTime := 510 }] := by
  refine ⟨by decide, ?_⟩
  rw [(recordLap_prepends { init with time := 510 } (by decide)).1]
  decide

/-- C3: for every non-negative integer `t`, `formatTime t` is three
all-digit fields joined by `":"` — the first (minutes) at least 2 digits,
the other two exactly 2 — each field being the zero-padded decimal of
`t / 60000`, `t % 60000 / 1000` and `t % 1000 / 10` respectively; and the
two concrete examples from the spec. -/
theorem formatTime_pattern :
    (∀ t : Int, 0 ≤ t →
      ∃ a b c : String,
        formatTime t = a ++ ":" ++ b ++ ":" ++ c ∧
        a = padStart2 (Nat.repr (t.toNat / 60000)) ∧
        b = padStart2 (Nat.repr (t.toNat % 60000 / 1000)) ∧
        c = padStart2 (Nat.repr (t.toNat % 1000 / 10)) ∧
        2 ≤ a.length ∧ (∀ ch ∈ a.data, ch.isDigit = true) ∧
        b.length = 2 ∧ (∀ ch ∈ b.data, ch.isDigit = true) ∧
        c.length = 2 ∧ (∀ ch ∈ c.data, ch.isDigit = true)) ∧
    formatTime 0 = "00:00:00" ∧ formatTime 61010 = "01:01:01" := by
  refine ⟨?_, by decide, by decide⟩
  intro t ht
  obtain ⟨n, rfl⟩ : ∃ n : Nat, t = (n : Int) := ⟨t.toNat, (Int.toNat_of_nonneg ht).symm⟩
  refine ⟨padStart2 (Nat.repr (n / 60000)), padStart2 (Nat.repr (n % 60000 / 1000)),
    padStart2 (Nat.repr (n % 1000 / 10)), formatTime_natCast n,
    by simp, by simp, by simp,
    two_le_padStart2_length _,
    padStart2_digits (repr_data_digits _),
    padStart2_length (le_trans (repr_length_le_two ⟨n % 60000 / 1000, by omega⟩)
      (le_refl 2)),
    padStart2_digits (repr_data_digits _),
    padStart2_length (le_trans (repr_length_le_two ⟨n % 1000 / 10, by omega⟩)
      (le_refl 2)),
    padStart2_digits (repr_data_digits _)⟩

theorem formatTime_pattern_witness :
    (0 : Int) ≤ 61010 ∧
    ∃ a b c : String,
      formatTime 61010 = a ++ ":" ++ b ++ ":" ++ c ∧
      a = padStart2 (Nat.repr ((61010 : Int).toNat / 60000)) ∧
      b = padStart2 (Nat.repr ((61010 : Int).toNat % 60000 / 1000)) ∧
      c = padStart2 (Nat.repr ((61010 : Int).toNat % 1000 / 10)) ∧
      2 ≤ a.length ∧ (∀ ch ∈ a.data, ch.isDigit = true) ∧
      b.length = 2 ∧ (∀ ch ∈ b.data, ch.isDigit = true) ∧
      c.length = 2 ∧ (∀ ch ∈ c.data, ch.isDigit = true) :=
  ⟨by decide, formatTime_pattern.1 61010 (by decide)⟩

/-- C4: from every state of the rendered component (reachable through its
event surface), `resetStopwatch` yields `running = false`, elapsed time 0,
no laps, a cleared handle, and no interval left registered. -/
theorem resetStopwatch_resets (s : SWState) (h : ReachUI s) :
    (resetStopwatch s).isRunning = false ∧ (resetStopwatch s).time = 0 ∧
    (resetStopwatch s).lapTimes = [] ∧ (resetStopwatch s).intervalRef = none ∧
    (resetStopwatch s).timers = [] := by
  obtain ⟨ht, -, -⟩ := handled_reset (reachUI_handled h)
  refine ⟨by simp, by simp, by simp, by simp, ?_⟩
  rw [ht, resetStopwatch_intervalRef]
  rfl

theorem resetStopwatch_resets_witness :
    ReachUI (handleStartPause init) ∧
    ((resetStopwatch (handleStartPause init)).isRunning = false ∧
     (resetStopwatch (handleStartPause init)).time = 0 ∧
     (resetStopwatch (handleStartPause init)).lapTimes = [] ∧
     (resetStopwatch (handleStartPause init)).intervalRef = none ∧
     (resetStopwatch (handleStartPause init)).timers = []) :=
  ⟨Relation.ReflTransGen.single (UIStep.toggle init),
   resetStopwatch_resets _ (Relation.ReflTransGen.single (UIStep.toggle init))⟩

/-- C5: with elapsed time exactly 0, `recordLap` is a guarded no-op — the
whole state is returned unchanged. -/
theorem recordLap_zero_noop (s : SWState) (h : s.time = 0) : recordLap s = s := by
  simp [recordLap, h]

theorem recordLap_zero_noop_witness :
    init.time = 0 ∧ recordLap init = init :=
  ⟨rfl, recordLap_zero_noop init rfl⟩

theorem handled_pause_timers {s : SWState} (h : Handled s) :
    (pauseStopwatch s).timers = [] := by
  obtain ⟨ht, -, -⟩ := h
  cases hj : s.intervalRef with
  | none => simp [pauseStopwatch, clearHandle, hj, ht]
  | some j => simp [pauseStopwatch, clearHandle, hj, ht]

theorem handled_unmount_timers {s : SWState} (h : Handled s) :
    (unmountCleanup s).timers = [] := by
  obtain ⟨ht, -, -⟩ := h
  cases hj : s.intervalRef with
  | none => simp [unmountCleanup, hj, ht]
  | some j => simp [unmountCleanup, hj, ht]

/-- C6: after `pauseStopwatch`, after `resetStopwatch`, and after the
`useEffect` unmount cleanup, no interval remains registered; moreover any
interval id that was live before the call stays unregistered along every
subsequent execution, so the cancelled periodic callback can never mutate
elapsed time again. -/
theorem cleanup_cancels_timer (s : SWState) (h : ReachUI s) :
    ((pauseStopwatch s).timers = [] ∧ (resetStopwatch s).timers = [] ∧
      (unmountCleanup s).timers = []) ∧
    ∀ k ∈ s.timers,
      (∀ s', Relation.ReflTransGen Step (pauseStopwatch s) s' → k ∉ s'.timers) ∧
      (∀ s', Relation.ReflTransGen Step (resetStopwatch s) s' → k ∉ s'.timers) ∧
      (∀ s', Relation.ReflTransGen Step (unmountCleanup s) s' → k ∉ s'.timers) := by
  have hh := reachUI_handled h
  have hpause := handled_pause_timers hh
  have hreset : (resetStopwatch s).timers = [] := by
    obtain ⟨ht, -, -⟩ := handled_reset hh
    rw [ht, resetStopwatch_intervalRef]; rfl
  have hunmount := handled_unmount_timers hh
  refine ⟨⟨hpause, hreset, hunmount⟩, ?_⟩
  intro k hk
  have hlt : k < s.nextId := hh.2.2 k hk
  refine ⟨?_, ?_, ?_⟩
  · intro s' hs'
    exact steps_timer_gone hs' (by rw [hpause]; exact List.not_mem_nil k)
      (by rw [pauseStopwatch_nextId]; exact hlt)
  · intro s' hs'
    exact steps_timer_gone hs' (by rw [hreset]; exact List.not_mem_nil k)
      (by rw [resetStopwatch_nextId]; exact hlt)
  · intro s' hs'
    exact steps_timer_gone hs' (by rw [hunmount]; exact List.not_mem_nil k)
      (by rw [unmountCleanup_nextId]; exact hlt)

theorem cleanup_cancels_timer_witness :
    ReachUI (handleStartPause init) ∧ (1 : Nat) ∈ (handleStartPause init).timers ∧
    (1 : Nat) ∉ (pauseStopwatch (handleStartPause init)).timers :=
  ⟨Relation.ReflTransGen.single (UIStep.toggle init), by decide,
   ((cleanup_cancels_timer _ (Relation.ReflTransGen.single (UIStep.toggle init))).2
      1 (by decide)).1 _ Relation.ReflTransGen.refl⟩

/-- C7: in every reachable state (under start, pause, toggle, tick,
record-lap and reset), the stored lap ids read front-to-back are
`n, n-1, …, 1` — i.e. sequence numbers are 1-based and strictly increasing
in capture order, displayed newest-first. -/
theorem lap_ids_countdown (s : SWState) (h : Reach s) :
    s.lapTimes.map (fun l => l.id) = (List.range' 1 s.lapTimes.length).reverse := by
  induction h with
  | refl => rfl
  | @tail b c h1 hstep ih =>
    cases hstep with
    | start => simpa using ih
    | pause => simpa using ih
    | toggle => simpa using ih
    | tick _ _ => simpa using ih
    | reset => simp
    | lap =>
      by_cases hb : 0 < b.time
      · have hlap := (recordLap_prepends b hb).1
        have hrev : (List.range' 1 (b.lapTimes.length + 1)).reverse
            = (b.lapTimes.length + 1) :: (List.range' 1 b.lapTimes.length).reverse := by
          rw [List.range'_concat, List.reverse_append]
          simp [Nat.add_comm]
        rw [hlap]
        simp only [List.map_cons, List.length_cons, hrev, ih]
      · have hnoop : recordLap b = b := by simp [recordLap, hb]
        rw [hnoop]
        exact ih

theorem lap_ids_countdown_witness :
    Reach (recordLap (recordLap (tickOnce (handleStartPause init)))) ∧
    ((recordLap (recordLap (tickOnce (handleStartPause init)))).lapTimes.map
        (fun l => l.id) = [2, 1]) := by
  have hr : Reach (recordLap (recordLap (tickOnce (handleStartPause init)))) :=
    Relation.ReflTransGen.tail
      (Relation.ReflTransGen.tail
        (Relation.ReflTransGen.tail
          (Relation.ReflTransGen.single (Step.toggle init))
          (Step.tick _ 1 (by decide)))
        (Step.lap _))
      (Step.lap _)
  refine ⟨hr, ?_⟩
  rw [lap_ids_countdown _ hr]
  decide

/-- C8: elapsed time is non-negative in every reachable state; each firing
of the periodic tick adds exactly 10 ms; every non-reset transition leaves
elapsed time non-decreasing; and a transition from a reachable state whose
elapsed time is non-zero can reach elapsed time 0 only by being the reset
transition. -/
theorem elapsed_time_invariants :
    (∀ s, Reach s → 0 ≤ s.time) ∧
    (∀ s, (tickOnce s).time = s.time + 10) ∧
    (∀ s s', Step s s' → s.time ≤ s'.time ∨ s' = resetStopwatch s) ∧
    (∀ s s', Reach s → Step s s' → s'.time = 0 → s.time ≠ 0 →
      s' = resetStopwatch s) := by
  have hpos : ∀ s, Reach s → 0 ≤ s.time := by
    intro s h
    induction h with
    | refl => exact le_refl 0
    | @tail b c h1 hstep ih =>
      cases hstep with
      | start => rwa [startStopwatch_time]
      | pause => rwa [pauseStopwatch_time]
      | toggle => rwa [handleStartPause_time]
      | lap => rwa [recordLap_time]
      | reset => rw [resetStopwatch_time]
      | tick _ _ => rw [tickOnce_time]; omega
  refine ⟨hpos, fun s => rfl, ?_, ?_⟩
  · intro s s' hstep
    cases hstep with
    | start => exact Or.inl (le_of_eq (startStopwatch_time s).symm)
    | pause => exact Or.inl (le_of_eq (pauseStopwatch_time s).symm)
    | toggle => exact Or.inl (le_of_eq (handleStartPause_time s).symm)
    | lap => exact Or.inl (le_of_eq (recordLap_time s).symm)
    | reset => exact Or.inr rfl
    | tick _ _ => exact Or.inl (by rw [tickOnce_time]; omega)
  · intro s s' hr hstep h0 hne
    cases hstep with
    | start => rw [startStopwatch_time] at h0; exact absurd h0 hne
    | pause => rw [pauseStopwatch_time] at h0; exact absurd h0 hne
    | toggle => rw [handleStartPause_time] at h0; exact absurd h0 hne
    | lap => rw [recordLap_time] at h0; exact absurd h0 hne
    | reset => rfl
    | tick _ _ =>
      rw [tickOnce_time] at h0
      have := hpos s hr
      omega

theorem elapsed_time_invariants_witness :
    (0 ≤ init.time) ∧
    resetStopwatch (tickOnce (handleStartPause init)) =
      resetStopwatch (tickOnce (handleStartPause init)) :=
  ⟨elapsed_time_invariants.1 init Relation.ReflTransGen.refl,
   elapsed_time_invariants.2.2.2 (tickOnce (handleStartPause init)) _
     (Relation.ReflTransGen.tail
       (Relation.ReflTransGen.single (Step.toggle init))
       (Step.tick _ 1 (by decide)))
     (Step.reset _) (by decide) (by decide)⟩

/-- C9: every lap record in every reachable state carries
`time = formatTime totalTime` — the snapshot string is produced by the same
single formatting function used for the live display, and every operation
preserves this. -/
theorem laps_use_formatTime (s : SWState) (h : Reach s) :
    ∀ l ∈ s.lapTimes, l.time = formatTime l.totalTime := by
  induction h with
  | refl => intro l hl; exact absurd hl (List.not_mem_nil l)
  | @tail b c h1 hstep ih =>
    cases hstep with
    | start => rw [startStopwatch_lapTimes]; exact ih
    | pause => rw [pauseStopwatch_lapTimes]; exact ih
    | toggle => rw [handleStartPause_lapTimes]; exact ih
    | tick _ _ => rw [tickOnce_lapTimes]; exact ih
    | reset => rw [resetStopwatch_lapTimes]; intro l hl; exact absurd hl (List.not_mem_nil l)
    | lap =>
      by_cases hb : 0 < b.time
      · rw [(recordLap_prepends b hb).1]
        intro l hl
        rcases List.mem_cons.mp hl with h0 | h0
        · rw [h0]
        · exact ih l h0
      · rw [show recordLap b = b from by simp [recordLap, hb]]
        exact ih

theorem laps_use_formatTime_witness :
    Reach (recordLap (tickOnce (handleStartPause init))) ∧
    ∀ l ∈ (recordLap (tickOnce (handleStartPause init))).lapTimes,
      l.time = formatTime l.totalTime :=
  ⟨Relation.ReflTransGen.tail
     (Relation.ReflTransGen.tail
       (Relation.ReflTransGen.single (Step.toggle init))
       (Step.tick _ 1 (by decide)))
     (Step.lap _),
   laps_use_formatTime _
     (Relation.ReflTransGen.tail
       (Relation.ReflTransGen.tail
         (Relation.ReflTransGen.single (Step.toggle init))
         (Step.tick _ 1 (by decide)))
       (Step.lap _))⟩

/-- C10: frame effects — `startStopwatch`, `pauseStopwatch`,
`handleStartPause` and `recordLap` leave elapsed time unchanged; only the
tick (adds 10) and `resetStopwatch` (sets 0) change it; and
`startStopwatch`, `pauseStopwatch`, `handleStartPause` leave the lap
collection unchanged. -/
theorem frame_properties (s : SWState) :
    (startStopwatch s).time = s.time ∧ (pauseStopwatch s).time = s.time ∧
    (handleStartPause s).time = s.time ∧ (recordLap s).time = s.time ∧
    (tickOnce s).time = s.time + 10 ∧ (resetStopwatch s).time = 0 ∧
    (startStopwatch s).lapTimes = s.lapTimes ∧
    (pauseStopwatch s).lapTimes = s.lapTimes ∧
    (handleStartPause s).lapTimes = s.lapTimes :=
  ⟨rfl, pauseStopwatch_time s, handleStartPause_time s, recordLap_time s,
   rfl, resetStopwatch_time s, rfl, pauseStopwatch_lapTimes s,
   handleStartPause_lapTimes s⟩

theorem frame_properties_witness :
    (startStopwatch init).time = init.time ∧
    (pauseStopwatch init).time = init.time ∧
    (handleStartPause init).time = init.time ∧
    (recordLap init).time = init.time ∧
    (tickOnce init).time = init.time + 10 ∧ (resetStopwatch init).time = 0 ∧
    (startStopwatch init).lapTimes = init.lapTimes ∧
    (pauseStopwatch init).lapTimes = init.lapTimes ∧
    (handleStartPause init).lapTimes = init.lapTimes :=
  frame_properties init

end Stopwatch
